/-
Verification of the simulation core of the Bartimaeus idle RPG
(src/scripts/hero.js, enemy.js, battle.js, resources.js).

JavaScript numbers are embedded as exact rationals (ℚ).  Every decimal
literal appearing in the source (0.5, 0.15, 1.2, …) denotes the exact
rational of its decimal notation; `Math.floor` is `Int.floor` and the
JavaScript remainder operator is truncated remainder (`jsMod` below).
-/

import Mathlib

namespace IdleRPG

/-- JavaScript truncation (`Math.trunc`, and the rounding used by `%`):
floor for non-negative arguments, ceiling for negative ones. -/
def jsTrunc (q : ℚ) : ℤ :=
  if 0 ≤ q then ⌊q⌋ else ⌈q⌉

/-- The JavaScript remainder operator `a % b` (sign of the dividend). -/
def jsMod (a b : ℚ) : ℚ :=
  a - b * (jsTrunc (a / b) : ℚ)

/-! ## Enemy (src/scripts/enemy.js) -/

/-- State of an `Enemy` object.  `color` is a pure function of `type` and is
omitted; `x`/`y` are the renderer position fields. -/
structure Enemy where
  id : ℕ
  type : String
  maxHealth : ℚ
  health : ℚ
  attack : ℚ
  defense : ℚ
  x : ℚ := 0
  y : ℚ := 0
  deriving Repr, DecidableEq, Inhabited

/-- `new Enemy(id, type, health, attack, defense)`. -/
def Enemy.create (id : ℕ) (type : String) (health attack defense : ℚ) : Enemy :=
  { id := id
    type := type
    maxHealth := health
    health := health
    attack := attack
    defense := defense }

/-- `Enemy.takeDamage(damage)`: subtracts `max(1, damage - defense*0.5)` from
health (clamped at 0) and returns `Math.floor` of that amount.  Note the
source floors only the returned value, not the amount subtracted. -/
def Enemy.takeDamage (e : Enemy) (damage : ℚ) : Enemy × ℤ :=
  let reduction := e.defense * 0.5
  let actualDamage := max 1 (damage - reduction)
  let health1 := e.health - actualDamage
  let health2 := if health1 < 0 then 0 else health1
  ({ e with health := health2 }, ⌊actualDamage⌋)

/-- `Enemy.isAlive()`. -/
def Enemy.isAlive (e : Enemy) : Bool :=
  e.health > 0

/-! ## Hero (src/scripts/hero.js) -/

/-- State of a `Hero` object (color/x/y renderer fields omitted except the
position used by floating damage numbers). -/
structure Hero where
  id : ℕ
  name : String
  role : String
  level : ℕ
  baseHealth : ℚ
  baseAttack : ℚ
  baseDefense : ℚ
  maxHealth : ℚ
  health : ℚ
  attack : ℚ
  defense : ℚ
  unlockedSkills : List String
  x : ℚ := 0
  y : ℚ := 0
  deriving Repr, DecidableEq, Inhabited

/-- `calculateMaxHealth`: `Math.floor(baseHealth * (1 + (level - 1) * 0.15))`. -/
def calculateMaxHealth (baseHealth : ℚ) (level : ℕ) : ℚ :=
  (⌊baseHealth * (1 + ((level : ℚ) - 1) * 0.15)⌋ : ℤ)

/-- `calculateAttack`: `Math.floor(baseAttack * (1 + (level - 1) * 0.10))`. -/
def calculateAttack (baseAttack : ℚ) (level : ℕ) : ℚ :=
  (⌊baseAttack * (1 + ((level : ℚ) - 1) * 0.10)⌋ : ℤ)

/-- `calculateDefense`: `Math.floor(baseDefense * (1 + (level - 1) * 0.08))`. -/
def calculateDefense (baseDefense : ℚ) (level : ℕ) : ℚ :=
  (⌊baseDefense * (1 + ((level : ℚ) - 1) * 0.08)⌋ : ℤ)

/-- `new Hero(id, name, role, baseHealth, baseAttack, baseDefense)`: level 1,
stats from the formulas, health at the full computed maximum. -/
def Hero.create (id : ℕ) (name role : String)
    (baseHealth baseAttack baseDefense : ℚ) : Hero :=
  let level := 1
  let maxHealth := calculateMaxHealth baseHealth level
  { id := id
    name := name
    role := role
    level := level
    baseHealth := baseHealth
    baseAttack := baseAttack
    baseDefense := baseDefense
    maxHealth := maxHealth
    health := maxHealth
    attack := calculateAttack baseAttack level
    defense := calculateDefense baseDefense level
    unlockedSkills := ["fireball"] }

/-- `Hero.takeDamage(damage)`: identical computation to `Enemy.takeDamage`. -/
def Hero.takeDamage (h : Hero) (damage : ℚ) : Hero × ℤ :=
  let reduction := h.defense * 0.5
  let actualDamage := max 1 (damage - reduction)
  let health1 := h.health - actualDamage
  let health2 := if health1 < 0 then 0 else health1
  ({ h with health := health2 }, ⌊actualDamage⌋)

/-- `Hero.isAlive()`. -/
def Hero.isAlive (h : Hero) : Bool :=
  h.health > 0

/-- `Hero.heal()`: full restore. -/
def Hero.heal (h : Hero) : Hero :=
  { h with health := h.maxHealth }

/-- `Hero.upgrade()`: increments the level, recomputes max health / attack /
defense from the formulas at the new level, and adds the max-health delta to
current health. -/
def Hero.upgrade (h : Hero) : Hero :=
  let level := h.level + 1
  let oldMaxHealth := h.maxHealth
  let maxHealth := calculateMaxHealth h.baseHealth level
  let healthIncrease := maxHealth - oldMaxHealth
  { h with
    level := level
    maxHealth := maxHealth
    attack := calculateAttack h.baseAttack level
    defense := calculateDefense h.baseDefense level
    health := h.health + healthIncrease }

/-- `Hero.getUpgradeCost()`: `Math.floor(100 * Math.pow(level, 1.5))`.
`100 * level^(3/2) = √(10000·level³)` exactly, so its floor is
`Nat.sqrt (10000 * level ^ 3)`. -/
def Hero.getUpgradeCost (h : Hero) : ℕ :=
  Nat.sqrt (10000 * h.level ^ 3)

/-- The object produced by `Hero.toJSON` (the saved payload). -/
structure HeroSave where
  id : ℕ
  name : String
  role : String
  level : ℕ
  baseHealth : ℚ
  baseAttack : ℚ
  baseDefense : ℚ
  unlockedSkills : Option (List String)
  deriving Repr, DecidableEq

/-- `Hero.toJSON()`: serializes identity, level, base stats and skills.
Current health is not part of the payload. -/
def Hero.toJSON (h : Hero) : HeroSave :=
  { id := h.id
    name := h.name
    role := h.role
    level := h.level
    baseHealth := h.baseHealth
    baseAttack := h.baseAttack
    baseDefense := h.baseDefense
    unlockedSkills := some h.unlockedSkills }

/-- `Hero.fromJSON(data)`: rebuilds via the constructor, restores the level,
recomputes the stats and sets health to the recomputed maximum.
`data.unlockedSkills || ['fireball']` is the `Option.getD` below. -/
def Hero.fromJSON (data : HeroSave) : Hero :=
  let hero := Hero.create data.id data.name data.role
    data.baseHealth data.baseAttack data.baseDefense
  let hero := { hero with level := data.level }
  let hero := { hero with maxHealth := calculateMaxHealth hero.baseHealth hero.level }
  let hero := { hero with health := hero.maxHealth }
  let hero := { hero with attack := calculateAttack hero.baseAttack hero.level }
  let hero := { hero with defense := calculateDefense hero.baseDefense hero.level }
  { hero with unlockedSkills := data.unlockedSkills.getD ["fireball"] }

/-- `createStartingHeroes()`: Bartimaeus the Tank. -/
def createStartingHeroes : Hero :=
  Hero.create 0 "Bartimaeus" "Tank" 500 30 25

/-! ## ResourceManager (src/scripts/resources.js) -/

/-- State of the `ResourceManager` (timing bookkeeping fields omitted; they
only feed `Date.now()`-based autosaving). -/
structure ResourceManager where
  gold : ℚ := 1000
  gems : ℚ := 50
  goldPerSecond : ℚ := 0
  gemsPerSecond : ℚ := 0
  deriving Repr, DecidableEq

/-- `updateIdleRates(stageLevel)`. -/
def ResourceManager.updateIdleRates (rm : ResourceManager) (stageLevel : ℚ) :
    ResourceManager :=
  { rm with
    goldPerSecond := stageLevel * 0.5
    gemsPerSecond := stageLevel * 0.01 }

/-- `ResourceManager.update(deltaTime)`: fractional idle accrual. -/
def ResourceManager.update (rm : ResourceManager) (deltaTime : ℚ) :
    ResourceManager :=
  let seconds := deltaTime / 1000
  { rm with
    gold := rm.gold + rm.goldPerSecond * seconds
    gems := rm.gems + rm.gemsPerSecond * seconds }

/-- `addGold(amount)`: adds `Math.floor(amount)` to the accumulator. -/
def ResourceManager.addGold (rm : ResourceManager) (amount : ℚ) : ResourceManager :=
  { rm with gold := rm.gold + (⌊amount⌋ : ℚ) }

/-- `spendGold(amount)`: compares `amount` against the raw (unfloored) gold
accumulator; on success subtracts and returns true, otherwise returns false
leaving the state unchanged. -/
def ResourceManager.spendGold (rm : ResourceManager) (amount : ℚ) :
    ResourceManager × Bool :=
  if rm.gold ≥ amount then ({ rm with gold := rm.gold - amount }, true)
  else (rm, false)

/-- `getGold()`: floored for display. -/
def ResourceManager.getGold (rm : ResourceManager) : ℤ :=
  ⌊rm.gold⌋

/-- `formatTime(seconds)`: "Ns" under a minute, "Nm Ns" under an hour,
"Nh Nm" otherwise. -/
def formatTime (seconds : ℚ) : String :=
  if seconds < 60 then
    toString ⌊seconds⌋ ++ "s"
  else if seconds < 3600 then
    let minutes := ⌊seconds / 60⌋
    let secs := ⌊jsMod seconds 60⌋
    toString minutes ++ "m " ++ toString secs ++ "s"
  else
    let hours := ⌊seconds / 3600⌋
    let minutes := ⌊jsMod seconds 3600 / 60⌋
    toString hours ++ "h " ++ toString minutes ++ "m"

/-- Result record of `calculateOfflineEarnings`. -/
structure OfflineEarnings where
  gold : ℤ
  gems : ℤ
  timeAwayFormatted : String
  deriving Repr, DecidableEq

/-- `calculateOfflineEarnings(timeAwayMs, currentStage)`: caps the elapsed
time at two hours, converts to seconds, and floors `rate * seconds` for both
currencies.  (The `this.timeAwaySeconds` store in the source is display-only
bookkeeping and carries no behavior.) -/
def calculateOfflineEarnings (timeAwayMs currentStage : ℚ) : OfflineEarnings :=
  let maxOfflineTime : ℚ := 2 * 60 * 60 * 1000
  let cappedTime := min timeAwayMs maxOfflineTime
  let timeAwaySeconds := cappedTime / 1000
  let goldRate := currentStage * 10
  let gemRate := currentStage * 0.1
  { gold := ⌊goldRate * timeAwaySeconds⌋
    gems := ⌊gemRate * timeAwaySeconds⌋
    timeAwayFormatted := formatTime timeAwaySeconds }

/-! ## BattleManager (src/scripts/battle.js, battle.ts)

The two files implement the same manager (one is the TypeScript port of the
other); the embedding below covers both.  `adventureLog` and `skillManager`
are `null` in the constructor and are only set by the excluded UI driver;
with a `null` log every `this.adventureLog && Math.random() < p` guard
short-circuits before drawing randomness, so they are modelled as absent.
`Math.random()` is modelled as an injectable stream of rationals consumed
left to right, and every floating number pushed by `createDamageNumber` is
additionally recorded on an append-only `events` trace so that theorems can
count emissions (the live `damageNumbers` list is also aged and filtered by
`update`, so it cannot serve as the event count). -/

/-- An element of `this.damageNumbers`: `{x, y, damage, opacity, lifetime,
maxLifetime, isHeal}`. -/
structure DamageNumber where
  x : ℚ
  y : ℚ
  damage : ℤ
  opacity : ℚ
  lifetime : ℚ
  maxLifetime : ℚ
  isHeal : Bool
  deriving Repr, DecidableEq

/-- Mutable fields of `BattleManager`. -/
structure BattleManager where
  hero : Option Hero := none
  enemies : List Enemy := []
  currentStage : ℕ := 1
  currentWave : ℕ := 1
  enemiesDefeatedThisStage : ℕ := 0
  maxEnemies : ℕ := 3
  isBattleActive : Bool := false
  isPaused : Bool := false
  attackInterval : ℚ := 1000
  timeSinceLastAttack : ℚ := 0
  damageNumbers : List DamageNumber := []
  deriving Repr, DecidableEq

/-- A battle state together with the random stream (`Math.random()` values,
consumed at increasing indices) and the emission trace. -/
structure CombatState where
  bm : BattleManager
  rngStream : ℕ → ℚ
  rngIdx : ℕ := 0
  events : List DamageNumber := []

/-- One `Math.random()` call. -/
def drawRand (s : CombatState) : ℚ × CombatState :=
  (s.rngStream s.rngIdx, { s with rngIdx := s.rngIdx + 1 })

/-- `createEnemyForStage(stageLevel)` with the insertion-time id
(`this.enemies.length`) passed explicitly. -/
def createEnemyForStage (stageLevel : ℕ) (id : ℕ) : Enemy :=
  let health := (⌊200 * (1.2 : ℚ) ^ (stageLevel - 1)⌋ : ℤ)
  let attack := (⌊25 * (1.15 : ℚ) ^ (stageLevel - 1)⌋ : ℤ)
  let defense := (⌊10 * (1.1 : ℚ) ^ (stageLevel - 1)⌋ : ℤ)
  let enemyType :=
    if stageLevel ≤ 2 then "Goblin"
    else if stageLevel ≤ 5 then "Orc"
    else if stageLevel ≤ 8 then "Skeleton"
    else if stageLevel ≤ 12 then "Demon"
    else "Dragon"
  Enemy.create id enemyType health attack defense

/-- The `while (this.enemies.length < this.maxEnemies)` push loop of
`spawnWave`. -/
def spawnLoop (stage maxE : ℕ) (enemies : List Enemy) : List Enemy :=
  if enemies.length < maxE then
    spawnLoop stage maxE (enemies ++ [createEnemyForStage stage enemies.length])
  else enemies
termination_by maxE - enemies.length
decreasing_by simp; omega

/-- `spawnWave()` (the wave-log branch is behind the `null` adventure log). -/
def spawnWave (bm : BattleManager) : BattleManager :=
  { bm with enemies := spawnLoop bm.currentStage bm.maxEnemies bm.enemies }

/-- `startBattle(hero, stageLevel)`. -/
def startBattle (bm : BattleManager) (hero : Hero) (stageLevel : ℕ) :
    BattleManager :=
  let bm := { bm with
    hero := some hero.heal
    currentStage := stageLevel
    currentWave := 1
    enemiesDefeatedThisStage := 0
    maxEnemies := min 5 (3 + stageLevel / 5) }
  let bm := spawnWave bm
  { bm with
    isBattleActive := true
    isPaused := false
    timeSinceLastAttack := 0
    damageNumbers := [] }

/-- `createDamageNumber(x, y, damage, isHeal)`: pushes onto
`this.damageNumbers`; the embedding also records the entry on the trace. -/
def createDamageNumber (s : CombatState) (x y damage : ℚ) (isHeal : Bool) :
    CombatState :=
  let entry : DamageNumber :=
    { x := x
      y := y - 20
      damage := ⌊damage⌋
      opacity := 1.0
      lifetime := 0
      maxLifetime := 1000
      isHeal := isHeal }
  { s with
    bm := { s.bm with damageNumbers := s.bm.damageNumbers ++ [entry] }
    events := s.events ++ [entry] }

/-- Replace the `n`-th living enemy of the list (the JS code mutates the
object obtained from `aliveEnemies[n]` in place; this updates the same
position of `this.enemies`). -/
def setNthAlive : List Enemy → ℕ → Enemy → List Enemy
  | [], _, _ => []
  | e :: rest, n, v =>
    if e.isAlive then
      match n with
      | 0 => v :: rest
      | n + 1 => e :: setNthAlive rest n v
    else e :: setNthAlive rest n v

/-- `heroAttack(hero)`: random living target, ±10% damage variance, damage
applied through `takeDamage`, floating number with `isHeal = false`. -/
def heroAttack (s : CombatState) : CombatState :=
  match s.bm.hero with
  | none => s
  | some hero =>
    let aliveEnemies := s.bm.enemies.filter (fun e => e.isAlive)
    if aliveEnemies.isEmpty then s
    else
      let (r1, s1) := drawRand s
      let idx := (⌊r1 * (aliveEnemies.length : ℚ)⌋).toNat
      let target := aliveEnemies.getD idx default
      let (r2, s2) := drawRand s1
      let variance := 0.9 + r2 * 0.2
      let damage := (⌊hero.attack * variance⌋ : ℤ)
      let result := target.takeDamage (damage : ℚ)
      let s3 := { s2 with
        bm := { s2.bm with enemies := setNthAlive s2.bm.enemies idx result.1 } }
      createDamageNumber s3 target.x target.y (result.2 : ℚ) false

/-- `enemyAttack(enemy)`: ±10% variance, damage applied to the hero, floating
number created with `isHeal = true` (exactly as in the source: battle.js line
233 / battle.ts line 238 pass `true` for damage dealt to the hero). -/
def enemyAttack (s : CombatState) (enemy : Enemy) : CombatState :=
  match s.bm.hero with
  | none => s
  | some hero =>
    if ¬ hero.isAlive then s
    else
      let (r, s1) := drawRand s
      let variance := 0.9 + r * 0.2
      let damage := (⌊enemy.attack * variance⌋ : ℤ)
      let result := hero.takeDamage (damage : ℚ)
      let s2 := { s1 with bm := { s1.bm with hero := some result.1 } }
      createDamageNumber s2 hero.x hero.y (result.2 : ℚ) true

/-- The body of the `forEach` in `executeRound`. -/
def enemyStep (acc : CombatState) (e : Enemy) : CombatState :=
  if e.isAlive then enemyAttack acc e else acc

/-- `executeRound()`: hero first (if alive), then every living enemy in list
order. -/
def executeRound (s : CombatState) : CombatState :=
  let s1 :=
    match s.bm.hero with
    | some h => if h.isAlive then heroAttack s else s
    | none => s
  s1.bm.enemies.foldl enemyStep s1

/-- `updateDamageNumbers(deltaTime)`: age, drift, fade, and drop expired
entries. -/
def updateDamageNumbers (s : CombatState) (deltaTime : ℚ) : CombatState :=
  let aged := s.bm.damageNumbers.map (fun n =>
    let lifetime := n.lifetime + deltaTime
    { n with
      lifetime := lifetime
      y := n.y - 30 * (deltaTime / 1000)
      opacity := 1 - lifetime / n.maxLifetime })
  { s with bm := { s.bm with
      damageNumbers := aged.filter (fun n => n.lifetime < n.maxLifetime) } }

/-- `checkEnemyRespawn()`: drop dead enemies (counting defeats), then if the
live count fell below `maxEnemies` increment the wave counter once and
refill. -/
def checkEnemyRespawn (s : CombatState) : CombatState :=
  let survivors := s.bm.enemies.filter (fun e => e.isAlive)
  let bm1 := { s.bm with
    enemies := survivors
    enemiesDefeatedThisStage :=
      s.bm.enemiesDefeatedThisStage + (s.bm.enemies.length - survivors.length) }
  if survivors.length < bm1.maxEnemies then
    { s with bm := spawnWave { bm1 with currentWave := bm1.currentWave + 1 } }
  else
    { s with bm := bm1 }

/-- `respawnHero()`: full heal, no other penalty. -/
def respawnHero (s : CombatState) : CombatState :=
  match s.bm.hero with
  | none => s
  | some h => { s with bm := { s.bm with hero := some h.heal } }

/-- `BattleManager.update(deltaTime)`.  `speed` is the external
`window.game.speedMultiplier` divisor (1 when the global is absent or
falsy). -/
def CombatState.update (s : CombatState) (deltaTime speed : ℚ) : CombatState :=
  if !s.bm.isBattleActive || s.bm.isPaused || s.bm.hero.isNone then s
  else
    let t := s.bm.timeSinceLastAttack + deltaTime
    let s1 := { s with bm := { s.bm with timeSinceLastAttack := t } }
    let effectiveInterval := s.bm.attackInterval / speed
    let s2 :=
      if t ≥ effectiveInterval then
        let sr := executeRound s1
        { sr with bm := { sr.bm with timeSinceLastAttack := 0 } }
      else s1
    let s3 := updateDamageNumbers s2 deltaTime
    let s4 := checkEnemyRespawn s3
    match s4.bm.hero with
    | some h => if ¬ h.isAlive then respawnHero s4 else s4
    | none => s4

/-! ## Sequences of damage calls -/

/-- A finite sequence of `takeDamage` calls on a hero. -/
def Hero.applyDamages (h : Hero) (ds : List ℚ) : Hero :=
  ds.foldl (fun h d => (h.takeDamage d).1) h

/-- A finite sequence of `takeDamage` calls on an enemy. -/
def Enemy.applyDamages (e : Enemy) (ds : List ℚ) : Enemy :=
  ds.foldl (fun e d => (e.takeDamage d).1) e

/-- A stage-1 battle state with an empty roster (as after every enemy of a
wave has died and been removed), used to evaluate concrete scenarios. -/
def emptyRosterState : CombatState :=
  { bm := { enemies := []
            maxEnemies := 3
            currentStage := 1 }
    rngStream := fun _ => 0 }

/-- An active one-on-one battle state (fresh Bartimaeus against a harmless
200-health target dummy, random stream constantly 0) used to evaluate a
concrete round. -/
def roundWitnessState : CombatState :=
  { bm := { hero := some (Hero.create 0 "Bartimaeus" "Tank" 500 30 25)
            enemies := [Enemy.create 0 "Goblin" 200 0 0]
            isBattleActive := true }
    rngStream := fun _ => 0 }

/-- Upper bound on the health a single round can cost: an attacker with
attack `a` can remove at most `1 + a * 1.1` health with one hit (variance is
below 1.1 and the post-mitigation amount is at least 1). -/
def threatSum (es : List Enemy) : ℚ :=
  (es.map (fun e => 1 + e.attack * 1.1)).sum

/-! ## Basic lemmas about `takeDamage` -/

lemma heroTakeDamage_maxHealth (h : Hero) (d : ℚ) :
    (h.takeDamage d).1.maxHealth = h.maxHealth := by
  simp only [Hero.takeDamage]

lemma enemyTakeDamage_maxHealth (e : Enemy) (d : ℚ) :
    (e.takeDamage d).1.maxHealth = e.maxHealth := by
  simp only [Enemy.takeDamage]

lemma heroTakeDamage_health_clamp (h : Hero) (d : ℚ)
    (h0 : 0 ≤ h.health) (h1 : h.health ≤ h.maxHealth) :
    0 ≤ (h.takeDamage d).1.health ∧ (h.takeDamage d).1.health ≤ h.maxHealth := by
  simp only [Hero.takeDamage]
  constructor
  · split
    · exact le_refl 0
    · linarith [le_max_left (1 : ℚ) (d - h.defense * 0.5)]
  · split
    · exact le_trans h0 h1
    · have hmax := le_max_left (1 : ℚ) (d - h.defense * 0.5)
      linarith

lemma enemyTakeDamage_health_clamp (e : Enemy) (d : ℚ)
    (h0 : 0 ≤ e.health) (h1 : e.health ≤ e.maxHealth) :
    0 ≤ (e.takeDamage d).1.health ∧ (e.takeDamage d).1.health ≤ e.maxHealth := by
  simp only [Enemy.takeDamage]
  constructor
  · split
    · exact le_refl 0
    · linarith [le_max_left (1 : ℚ) (d - e.defense * 0.5)]
  · split
    · exact le_trans h0 h1
    · have hmax := le_max_left (1 : ℚ) (d - e.defense * 0.5)
      linarith

/-! ## Claim theorems -/

/-- C1.  The claim states that `takeDamage` subtracts from health the same
integer `max(1, floor(raw - reduction))` that it returns.  The source
instead subtracts the UNFLOORED `max(1, raw - reduction)` and floors only
the return value, so at the spec's own example (defense 25, raw hit 20,
health 100) the call returns 7 while health drops by 7.5, from 100 to 92.5
— exactly the input at which the repository's own damage-consistency test
(`|actual loss - reported| ≤ 0.0001`) fails, for the hero and the enemy
variant alike. -/
theorem C1_takeDamage_applies_unfloored_amount :
    ((Hero.create 0 "TestHero" "Tank" 100 10 25).takeDamage 20).2 = 7
    ∧ (Hero.create 0 "TestHero" "Tank" 100 10 25).health = 100
    ∧ ((Hero.create 0 "TestHero" "Tank" 100 10 25).takeDamage 20).1.health = 92.5
    ∧ ((Enemy.create 0 "TestEnemy" 100 10 25).takeDamage 20).2 = 7
    ∧ (Enemy.create 0 "TestEnemy" 100 10 25).health = 100
    ∧ ((Enemy.create 0 "TestEnemy" 100 10 25).takeDamage 20).1.health = 92.5 := by
  norm_num [Hero.create, Enemy.create, Hero.takeDamage, Enemy.takeDamage,
    calculateMaxHealth, calculateAttack, calculateDefense]

/-- C2.  For any non-negative raw amount and defense, the value returned by
`takeDamage` (hero or enemy variant) is an integer at least 1. -/
theorem C2_takeDamage_returns_at_least_one (h : Hero) (e : Enemy) (raw : ℚ)
    (hraw : 0 ≤ raw) (hhd : 0 ≤ h.defense) (hed : 0 ≤ e.defense) :
    1 ≤ (h.takeDamage raw).2 ∧ 1 ≤ (e.takeDamage raw).2 := by
  constructor
  · simp only [Hero.takeDamage]
    exact Int.le_floor.mpr (by exact_mod_cast le_max_left 1 _)
  · simp only [Enemy.takeDamage]
    exact Int.le_floor.mpr (by exact_mod_cast le_max_left 1 _)

theorem C2_takeDamage_returns_at_least_one_witness :
    (0 : ℚ) ≤ 20
    ∧ 0 ≤ (Hero.create 0 "TestHero" "Tank" 100 10 25).defense
    ∧ 0 ≤ (Enemy.create 0 "TestEnemy" 100 10 25).defense
    ∧ 1 ≤ ((Hero.create 0 "TestHero" "Tank" 100 10 25).takeDamage 20).2
    ∧ 1 ≤ ((Enemy.create 0 "TestEnemy" 100 10 25).takeDamage 20).2 := by
  have hd : (0:ℚ) ≤ (Hero.create 0 "TestHero" "Tank" 100 10 25).defense := by
    norm_num [Hero.create, calculateDefense]
  have ed : (0:ℚ) ≤ (Enemy.create 0 "TestEnemy" 100 10 25).defense := by
    norm_num [Enemy.create]
  have hmain := C2_takeDamage_returns_at_least_one
    (Hero.create 0 "TestHero" "Tank" 100 10 25)
    (Enemy.create 0 "TestEnemy" 100 10 25) 20 (by norm_num) hd ed
  exact ⟨by norm_num, hd, ed, hmain.1, hmain.2⟩

/-- C3.  Starting from any combatant state with `0 ≤ health ≤ maxHealth`,
every finite sequence of `takeDamage` calls keeps `0 ≤ health ≤ maxHealth`
(the bound holds after every call, since every prefix of a sequence is
itself a sequence); `maxHealth` is untouched by `takeDamage`. -/
theorem C3_health_invariant_under_damage_sequences (h : Hero) (e : Enemy)
    (hh0 : 0 ≤ h.health) (hh1 : h.health ≤ h.maxHealth)
    (he0 : 0 ≤ e.health) (he1 : e.health ≤ e.maxHealth) :
    ∀ ds : List ℚ,
      (0 ≤ (h.applyDamages ds).health
        ∧ (h.applyDamages ds).health ≤ (h.applyDamages ds).maxHealth)
      ∧ (0 ≤ (e.applyDamages ds).health
        ∧ (e.applyDamages ds).health ≤ (e.applyDamages ds).maxHealth) := by
  intro ds
  constructor
  · clear he0 he1
    induction ds generalizing h with
    | nil => exact ⟨hh0, hh1⟩
    | cons d ds ih =>
      have step := heroTakeDamage_health_clamp h d hh0 hh1
      have hm := heroTakeDamage_maxHealth h d
      exact ih (h.takeDamage d).1 step.1 (hm ▸ step.2)
  · clear hh0 hh1
    induction ds generalizing e with
    | nil => exact ⟨he0, he1⟩
    | cons d ds ih =>
      have step := enemyTakeDamage_health_clamp e d he0 he1
      have hm := enemyTakeDamage_maxHealth e d
      exact ih (e.takeDamage d).1 step.1 (hm ▸ step.2)

theorem C3_health_invariant_under_damage_sequences_witness :
    (0 : ℚ) ≤ (Hero.create 0 "TestHero" "Tank" 100 10 25).health
    ∧ 0 ≤ ((Hero.create 0 "TestHero" "Tank" 100 10 25).applyDamages [20, 300, 5]).health := by
  have hh0 : (0:ℚ) ≤ (Hero.create 0 "TestHero" "Tank" 100 10 25).health := by
    norm_num [Hero.create, calculateMaxHealth]
  have hh1 : (Hero.create 0 "TestHero" "Tank" 100 10 25).health
      ≤ (Hero.create 0 "TestHero" "Tank" 100 10 25).maxHealth := le_refl _
  have he0 : (0:ℚ) ≤ (Enemy.create 0 "TestEnemy" 100 10 25).health := by
    norm_num [Enemy.create]
  have he1 : (Enemy.create 0 "TestEnemy" 100 10 25).health
      ≤ (Enemy.create 0 "TestEnemy" 100 10 25).maxHealth := le_refl _
  exact ⟨hh0,
    ((C3_health_invariant_under_damage_sequences _ _ hh0 hh1 he0 he1 [20, 300, 5]).1).1⟩

/-- C5, counterexample.  The claim says `spendGold` fails exactly when
`amount > floor(goldBalance)`.  With a fractional balance of 100.5 and
`amount = 100.5` we have `amount > floor(100.5) = 100`, so the claim
predicts failure with the balance untouched — but the source compares the
raw accumulator (`this.gold >= amount`), succeeds, and subtracts. -/
theorem C5_spendGold_floored_comparison_counterexample :
    (100.5 : ℚ) > (⌊({ gold := 100.5 : ResourceManager }).gold⌋ : ℚ)
    ∧ (({ gold := 100.5 : ResourceManager }).spendGold 100.5).2 = true
    ∧ (({ gold := 100.5 : ResourceManager }).spendGold 100.5).1.gold = 0 := by
  norm_num [ResourceManager.spendGold]

/-- C5, amended.  `spendGold(amount)` fails (returns false, state unchanged)
exactly when `amount > goldBalance`, comparing against the raw unfloored
accumulator; otherwise it subtracts `amount` and returns true.  For integer
amounts this coincides with the claim's `amount > floor(goldBalance)`
condition. -/
theorem C5_spendGold_raw_comparison (rm : ResourceManager) (amount : ℚ) :
    ((rm.spendGold amount).2 = false ↔ rm.gold < amount)
    ∧ (rm.gold < amount → rm.spendGold amount = (rm, false))
    ∧ (amount ≤ rm.gold →
        rm.spendGold amount = ({ rm with gold := rm.gold - amount }, true))
    ∧ (∀ n : ℤ, amount = (n : ℚ) →
        ((rm.spendGold amount).2 = false ↔ ⌊rm.gold⌋ < n)) := by
  refine ⟨?_, ?_, ?_, ?_⟩
  · simp only [ResourceManager.spendGold]
    split
    · simp; linarith [‹rm.gold ≥ amount›]
    · simpa using lt_of_not_ge ‹¬ rm.gold ≥ amount›
  · intro hlt
    simp only [ResourceManager.spendGold]
    rw [if_neg (by exact not_le.mpr hlt)]
  · intro hle
    simp only [ResourceManager.spendGold]
    rw [if_pos (by exact hle)]
  · intro n hn
    subst hn
    simp only [ResourceManager.spendGold]
    split
    · have hnle : ¬ ⌊rm.gold⌋ < n :=
        not_lt.mpr (Int.le_floor.mpr ‹rm.gold ≥ (n : ℚ)›)
      simp [hnle]
    · have hlt : ⌊rm.gold⌋ < n :=
        Int.floor_lt.mpr (lt_of_not_ge ‹¬ rm.gold ≥ (n : ℚ)›)
      simp [hlt]

theorem C5_spendGold_raw_comparison_witness :
    ((3 : ℚ) < 5)
    ∧ ({ gold := 3 : ResourceManager }).spendGold 5
        = ({ gold := 3 : ResourceManager }, false) := by
  refine ⟨by norm_num, ?_⟩
  exact (C5_spendGold_raw_comparison { gold := 3 } 5).2.1 (by norm_num)

/-- C9.  `upgrade()` increments the level by exactly one, recomputes the
three stats from the formulas at the new level, and adds the max-health
delta to current health (never resetting to full); concretely, a damaged
level-1 hero with base stats 500/30/25 reaches level 2 with `maxHealth` 575
and a health gain of exactly 75, and `getUpgradeCost()` at level 1 is 100. -/
theorem C9_upgrade_recomputes_and_preserves_damage (h : Hero) :
    (h.upgrade.level = h.level + 1
      ∧ h.upgrade.maxHealth = calculateMaxHealth h.baseHealth (h.level + 1)
      ∧ h.upgrade.attack = calculateAttack h.baseAttack (h.level + 1)
      ∧ h.upgrade.defense = calculateDefense h.baseDefense (h.level + 1)
      ∧ h.upgrade.health = h.health + (h.upgrade.maxHealth - h.maxHealth))
    ∧ (((Hero.create 0 "Bartimaeus" "Tank" 500 30 25).takeDamage 100).1.upgrade.level = 2
      ∧ ((Hero.create 0 "Bartimaeus" "Tank" 500 30 25).takeDamage 100).1.upgrade.maxHealth = 575
      ∧ ((Hero.create 0 "Bartimaeus" "Tank" 500 30 25).takeDamage 100).1.upgrade.health
          = ((Hero.create 0 "Bartimaeus" "Tank" 500 30 25).takeDamage 100).1.health + 75
      ∧ ((Hero.create 0 "Bartimaeus" "Tank" 500 30 25).takeDamage 100).1.health = 412.5
      ∧ (Hero.create 0 "Bartimaeus" "Tank" 500 30 25).getUpgradeCost = 100) := by
  constructor
  · refine ⟨rfl, rfl, rfl, rfl, ?_⟩
    simp only [Hero.upgrade]
  · have hcost : (Hero.create 0 "Bartimaeus" "Tank" 500 30 25).getUpgradeCost = 100 := by
      show Nat.sqrt (10000 * 1 ^ 3) = 100
      have : 10000 * 1 ^ 3 = 100 * 100 := by norm_num
      rw [this, Nat.sqrt_eq]
    refine ⟨rfl, ?_, ?_, ?_, hcost⟩
    · norm_num [Hero.create, Hero.takeDamage, Hero.upgrade,
        calculateMaxHealth, calculateAttack, calculateDefense]
    · norm_num [Hero.create, Hero.takeDamage, Hero.upgrade,
        calculateMaxHealth, calculateAttack, calculateDefense]
    · norm_num [Hero.create, Hero.takeDamage,
        calculateMaxHealth, calculateAttack, calculateDefense]

/-- C10.  `Hero.fromJSON` always sets health to the maximum recomputed from
the saved base stats and level, and `Hero.toJSON` does not depend on current
health, so every load restores the hero to full health regardless of the
health at save time. -/
theorem C10_fromJSON_restores_full_health :
    (∀ data : HeroSave,
      (Hero.fromJSON data).health = calculateMaxHealth data.baseHealth data.level
      ∧ (Hero.fromJSON data).health = (Hero.fromJSON data).maxHealth)
    ∧ (∀ (h : Hero) (q : ℚ), Hero.toJSON { h with health := q } = Hero.toJSON h) := by
  exact ⟨fun data => ⟨rfl, rfl⟩, fun h q => rfl⟩

/-- C7.  The offline reward caps the elapsed time at 7,200,000 ms before the
rate multiplication and pays `floor((stage*10) * cappedSeconds)` gold, so an
absence of 999,999,999 ms pays exactly what 7,200,000 ms pays; the duration
string uses seconds below one minute, minutes+seconds below one hour, and
hours+minutes above; 90,000 ms at stage 3 pays 2700 gold formatted as
"1m 30s". -/
theorem C7_offline_reward_cap_and_formatting (s elapsedMs : ℚ)
    (hs : 1 ≤ s) (he : 0 ≤ elapsedMs) :
    (calculateOfflineEarnings elapsedMs s).gold
        = ⌊(s * 10) * (min elapsedMs 7200000 / 1000)⌋
    ∧ (calculateOfflineEarnings 999999999 s).gold
        = (calculateOfflineEarnings 7200000 s).gold
    ∧ (∀ secs : ℚ,
        (secs < 60 → formatTime secs = toString ⌊secs⌋ ++ "s")
        ∧ (¬ secs < 60 → secs < 3600 →
            formatTime secs
              = toString ⌊secs / 60⌋ ++ "m " ++ toString ⌊jsMod secs 60⌋ ++ "s")
        ∧ (¬ secs < 3600 →
            formatTime secs
              = toString ⌊secs / 3600⌋ ++ "h "
                  ++ toString ⌊jsMod secs 3600 / 60⌋ ++ "m"))
    ∧ (calculateOfflineEarnings 90000 3).gold = 2700
    ∧ (calculateOfflineEarnings 90000 3).timeAwayFormatted = "1m 30s" := by
  refine ⟨?_, ?_, ?_, ?_, ?_⟩
  · have hcap : (2 * 60 * 60 * 1000 : ℚ) = 7200000 := by norm_num
    simp only [calculateOfflineEarnings, hcap]
  · have hmin : min (999999999 : ℚ) (2 * 60 * 60 * 1000)
        = min (7200000 : ℚ) (2 * 60 * 60 * 1000) := by norm_num
    simp only [calculateOfflineEarnings, hmin]
  · intro secs
    refine ⟨?_, ?_, ?_⟩
    · intro hlt
      simp only [formatTime, if_pos hlt]
    · intro hge hlt
      simp only [formatTime, if_neg hge, if_pos hlt]
    · intro hge
      have hge60 : ¬ secs < 60 := fun hcon => hge (by linarith)
      simp only [formatTime, if_neg hge60, if_neg hge]
  · show (⌊3 * 10 * (min (90000 : ℚ) (2 * 60 * 60 * 1000) / 1000)⌋ : ℤ) = 2700
    norm_num
  · show formatTime (min (90000 : ℚ) (2 * 60 * 60 * 1000) / 1000) = "1m 30s"
    have h90 : min (90000 : ℚ) (2 * 60 * 60 * 1000) / 1000 = 90 := by norm_num
    rw [h90]
    have hm : (⌊(90 : ℚ) / 60⌋ : ℤ) = 1 := by norm_num
    have hsec : jsMod (90 : ℚ) 60 = 30 := by
      have ht : jsTrunc ((90 : ℚ) / 60) = 1 := by
        simp only [jsTrunc, if_pos (by norm_num : (0:ℚ) ≤ 90 / 60)]
        norm_num
      simp only [jsMod, ht]
      norm_num
    have hs30 : (⌊jsMod (90 : ℚ) 60⌋ : ℤ) = 30 := by rw [hsec]; norm_num
    simp only [formatTime, if_neg (by norm_num : ¬ (90 : ℚ) < 60),
      if_pos (by norm_num : (90 : ℚ) < 3600), hm, hs30]
    rfl

theorem C7_offline_reward_cap_and_formatting_witness :
    (1 : ℚ) ≤ 3 ∧ (0 : ℚ) ≤ 90000
    ∧ (calculateOfflineEarnings 90000 3).gold = 2700
    ∧ (calculateOfflineEarnings 90000 3).timeAwayFormatted = "1m 30s"
    ∧ (calculateOfflineEarnings 999999999 3).gold
        = (calculateOfflineEarnings 7200000 3).gold := by
  have hmain := C7_offline_reward_cap_and_formatting 3 90000
    (by norm_num) (by norm_num)
  exact ⟨by norm_num, by norm_num, hmain.2.2.2.1, hmain.2.2.2.2, hmain.2.1⟩

/-- C4.  The claim states that the floating entries emitted by `enemyAttack`
for damage dealt to the hero carry `isHeal = false`, symmetric to
`heroAttack`.  The source passes `true` at the `enemyAttack` call site
(battle.js line 233, battle.ts line 238), contradicting the documented
meaning of the parameter ("True if healing") and the renderer, which paints
`isHeal` entries green with a `+` prefix.  Evaluated at a concrete state
(fresh Bartimaeus vs one stage-1 Goblin, random stream constantly 0):
`enemyAttack` emits exactly one entry and it has `isHeal = true`, while
`heroAttack` emits exactly one entry with `isHeal = false`. -/
theorem C4_enemyAttack_marks_damage_as_heal :
    ((enemyAttack
        { bm := { hero := some (Hero.create 0 "Bartimaeus" "Tank" 500 30 25)
                  enemies := [Enemy.create 0 "Goblin" 200 25 10] }
          rngStream := fun _ => 0 }
        (Enemy.create 0 "Goblin" 200 25 10)).events.map (fun n => n.isHeal))
      = [true]
    ∧ ((heroAttack
        { bm := { hero := some (Hero.create 0 "Bartimaeus" "Tank" 500 30 25)
                  enemies := [Enemy.create 0 "Goblin" 200 25 10] }
          rngStream := fun _ => 0 }).events.map (fun n => n.isHeal))
      = [false] := by
  constructor
  · have halive : (Hero.create 0 "Bartimaeus" "Tank" 500 30 25).isAlive = true := by
      norm_num [Hero.create, Hero.isAlive, calculateMaxHealth]
    simp [enemyAttack, halive, drawRand, createDamageNumber]
  · have ealive : (Enemy.create 0 "Goblin" 200 25 10).isAlive = true := by
      norm_num [Enemy.create, Enemy.isAlive]
    simp [heroAttack, ealive, drawRand, createDamageNumber, List.filter]

/-! ## Lemmas for the respawn invariant -/

lemma createEnemyForStage_isAlive (stage id : ℕ) :
    (createEnemyForStage stage id).isAlive = true := by
  simp only [createEnemyForStage, Enemy.create, Enemy.isAlive,
    decide_eq_true_eq]
  have h1 : (1 : ℚ) ≤ (1.2 : ℚ) ^ (stage - 1) := one_le_pow₀ (by norm_num)
  have h200 : (200 : ℚ) ≤ 200 * (1.2 : ℚ) ^ (stage - 1) := by linarith
  have hfl : (200 : ℤ) ≤ ⌊(200 : ℚ) * (1.2 : ℚ) ^ (stage - 1)⌋ :=
    Int.le_floor.mpr (by exact_mod_cast h200)
  exact_mod_cast lt_of_lt_of_le (by norm_num : (0:ℤ) < 200) hfl

lemma spawnLoop_length (stage maxE : ℕ) (l : List Enemy) :
    (spawnLoop stage maxE l).length = max l.length maxE := by
  induction l using spawnLoop.induct stage maxE with
  | case1 l hlt ih =>
    rw [spawnLoop, if_pos hlt, ih]
    simp
    omega
  | case2 l hnlt =>
    rw [spawnLoop, if_neg hnlt]
    omega

lemma spawnLoop_mem (stage maxE : ℕ) (l : List Enemy) (e : Enemy)
    (hmem : e ∈ spawnLoop stage maxE l) :
    e ∈ l ∨ ∃ id, e = createEnemyForStage stage id := by
  induction l using spawnLoop.induct stage maxE with
  | case1 l hlt ih =>
    rw [spawnLoop, if_pos hlt] at hmem
    rcases ih hmem with h | h
    · rcases List.mem_append.mp h with h | h
      · exact Or.inl h
      · exact Or.inr ⟨l.length, List.mem_singleton.mp h⟩
    · exact Or.inr h
  | case2 l hnlt =>
    rw [spawnLoop, if_neg hnlt] at hmem
    exact Or.inl hmem

/-- C8.  Provided the roster never exceeds the configured maximum (true of
every reachable state: only `spawnWave` grows it, and only up to the
maximum) and `maxEnemies` carries the value `startBattle` assigns, every
`checkEnemyRespawn` call removes all dead enemies, leaves exactly
`min(5, 3 + floor(stage/5))` living enemies, and increments the wave
counter exactly once when and only when the live count had dropped below
that maximum; `startBattle` indeed assigns
`maxEnemies = min(5, 3 + floor(stage/5))`. -/
theorem C8_checkEnemyRespawn_refills_to_max (s : CombatState)
    (hlen : s.bm.enemies.length ≤ s.bm.maxEnemies)
    (hmax : s.bm.maxEnemies = min 5 (3 + s.bm.currentStage / 5)) :
    (∀ e ∈ (checkEnemyRespawn s).bm.enemies, e.isAlive = true)
    ∧ (checkEnemyRespawn s).bm.enemies.length
        = min 5 (3 + s.bm.currentStage / 5)
    ∧ (checkEnemyRespawn s).bm.currentWave
        = (if (s.bm.enemies.filter (fun e => e.isAlive)).length < s.bm.maxEnemies
           then s.bm.currentWave + 1 else s.bm.currentWave)
    ∧ (∀ (bm0 : BattleManager) (hh : Hero) (st : ℕ),
        (startBattle bm0 hh st).maxEnemies = min 5 (3 + st / 5)) := by
  have hsurv : (s.bm.enemies.filter (fun e => e.isAlive)).length
      ≤ s.bm.enemies.length := List.length_filter_le _ _
  have hstart : ∀ (bm0 : BattleManager) (hh : Hero) (st : ℕ),
      (startBattle bm0 hh st).maxEnemies = min 5 (3 + st / 5) :=
    fun _ _ _ => rfl
  by_cases hlt :
    (s.bm.enemies.filter (fun e => e.isAlive)).length < s.bm.maxEnemies
  · refine ⟨?_, ?_, ?_, hstart⟩
    · intro e hmem
      simp only [checkEnemyRespawn, if_pos hlt, spawnWave] at hmem
      rcases spawnLoop_mem _ _ _ _ hmem with h | ⟨id, rfl⟩
      · exact (List.mem_filter.mp h).2
      · exact createEnemyForStage_isAlive _ _
    · simp only [checkEnemyRespawn, if_pos hlt, spawnWave, spawnLoop_length]
      rw [← hmax]
      omega
    · simp only [checkEnemyRespawn, if_pos hlt, spawnWave]
  · refine ⟨?_, ?_, ?_, hstart⟩
    · intro e hmem
      simp only [checkEnemyRespawn, if_neg hlt] at hmem
      exact (List.mem_filter.mp hmem).2
    · simp only [checkEnemyRespawn, if_neg hlt]
      rw [← hmax]
      omega
    · simp only [checkEnemyRespawn, if_neg hlt]

theorem C8_checkEnemyRespawn_refills_to_max_witness :
    emptyRosterState.bm.enemies.length ≤ emptyRosterState.bm.maxEnemies
    ∧ (checkEnemyRespawn emptyRosterState).bm.enemies.length = 3 := by
  refine ⟨by simp [emptyRosterState], ?_⟩
  have h := C8_checkEnemyRespawn_refills_to_max emptyRosterState
    (by simp [emptyRosterState]) (by norm_num [emptyRosterState])
  simpa [emptyRosterState] using h.2.1

/-! ## Lemmas for the round scheduler -/

lemma threatSum_nil : threatSum [] = 0 := rfl

lemma threatSum_cons (e : Enemy) (es : List Enemy) :
    threatSum (e :: es) = (1 + e.attack * 1.1) + threatSum es := by
  simp [threatSum]

lemma threatSum_nonneg (es : List Enemy) (h : ∀ e ∈ es, 0 ≤ e.attack) :
    0 ≤ threatSum es := by
  induction es with
  | nil => simp [threatSum_nil]
  | cons e es ih =>
    rw [threatSum_cons]
    have he := h e (List.mem_cons_self e es)
    have : 0 ≤ threatSum es := ih (fun x hx => h x (List.mem_cons_of_mem e hx))
    nlinarith

lemma setNthAlive_eq_set (l : List Enemy) :
    ∀ (n : ℕ) (v : Enemy), (∀ e ∈ l, e.isAlive = true) →
      setNthAlive l n v = l.set n v := by
  induction l with
  | nil => intro n v _; cases n <;> rfl
  | cons e rest ih =>
    intro n v hall
    have he : e.isAlive = true := hall e (List.mem_cons_self e rest)
    cases n with
    | zero => simp [setNthAlive, he]
    | succ n =>
      simp [setNthAlive, he,
        ih n v (fun x hx => hall x (List.mem_cons_of_mem e hx))]

lemma threatSum_set (l : List Enemy) :
    ∀ (n : ℕ) (v : Enemy), n < l.length →
      v.attack = (l.getD n default).attack →
      threatSum (l.set n v) = threatSum l := by
  induction l with
  | nil => intro n v hn _; simp at hn
  | cons e rest ih =>
    intro n v hn hatk
    cases n with
    | zero =>
      simp only [List.set, threatSum_cons]
      simp only [List.getD, List.get?, Option.getD] at hatk
      rw [hatk]
    | succ n =>
      simp only [List.set, threatSum_cons]
      have hrec := ih n v (by simpa using hn) (by simpa using hatk)
      rw [hrec]

lemma floor_rand_index_lt (r : ℚ) (len : ℕ)
    (h0 : 0 ≤ r) (h1 : r < 1) (hlen : 0 < len) :
    (⌊r * (len : ℚ)⌋).toNat < len := by
  have hub : r * (len : ℚ) < (len : ℚ) := by
    have := mul_lt_mul_of_pos_right h1 (by exact_mod_cast hlen : (0:ℚ) < len)
    linarith
  have hf : ⌊r * (len : ℚ)⌋ < (len : ℤ) := Int.floor_lt.mpr (by exact_mod_cast hub)
  have hnn : 0 ≤ ⌊r * (len : ℚ)⌋ :=
    Int.floor_nonneg.mpr (mul_nonneg h0 (by positivity))
  omega

lemma updateDamageNumbers_frame (s : CombatState) (dt : ℚ) :
    (updateDamageNumbers s dt).events = s.events
    ∧ (updateDamageNumbers s dt).bm.timeSinceLastAttack = s.bm.timeSinceLastAttack
    ∧ (updateDamageNumbers s dt).bm.hero = s.bm.hero := by
  exact ⟨rfl, rfl, rfl⟩

lemma checkEnemyRespawn_frame (s : CombatState) :
    (checkEnemyRespawn s).events = s.events
    ∧ (checkEnemyRespawn s).bm.timeSinceLastAttack = s.bm.timeSinceLastAttack
    ∧ (checkEnemyRespawn s).bm.hero = s.bm.hero := by
  simp only [checkEnemyRespawn]
  split <;> exact ⟨rfl, rfl, rfl⟩

lemma respawnHero_frame (s : CombatState) :
    (respawnHero s).events = s.events
    ∧ (respawnHero s).bm.timeSinceLastAttack = s.bm.timeSinceLastAttack := by
  cases h : s.bm.hero <;> simp [respawnHero, h]

lemma Hero.takeDamage_health_lower (h : Hero) (d B : ℚ)
    (hhd : 0 ≤ h.defense) (hdB : d ≤ B) (hB : 0 ≤ B) :
    h.health - (1 + B) ≤ (h.takeDamage d).1.health := by
  have hbound : max 1 (d - h.defense * 0.5) ≤ 1 + B := by
    apply max_le
    · linarith
    · linarith
  simp only [Hero.takeDamage]
  split
  · rename_i hneg
    nlinarith
  · nlinarith

lemma enemyAttack_effect (s : CombatState) (e : Enemy) (hero : Hero)
    (hhero : s.bm.hero = some hero) (hal : hero.isAlive = true)
    (hr1 : s.rngStream s.rngIdx < 1)
    (hea : 0 ≤ e.attack) (hhd : 0 ≤ hero.defense) :
    ∃ hero2 : Hero,
      (enemyAttack s e).bm.hero = some hero2
      ∧ hero.health - (1 + e.attack * 1.1) ≤ hero2.health
      ∧ hero2.defense = hero.defense
      ∧ (enemyAttack s e).events.length = s.events.length + 1
      ∧ (enemyAttack s e).bm.timeSinceLastAttack = s.bm.timeSinceLastAttack
      ∧ (enemyAttack s e).rngStream = s.rngStream := by
  refine ⟨(hero.takeDamage
      ((⌊e.attack * (0.9 + s.rngStream s.rngIdx * 0.2)⌋ : ℤ) : ℚ)).1,
    ?_, ?_, ?_, ?_, ?_, ?_⟩
  · simp [enemyAttack, hhero, hal, drawRand, createDamageNumber]
  · have hfl : ((⌊e.attack * (0.9 + s.rngStream s.rngIdx * 0.2)⌋ : ℚ))
        ≤ e.attack * 1.1 := by
      have h1 : e.attack * (0.9 + s.rngStream s.rngIdx * 0.2)
          ≤ e.attack * 1.1 :=
        mul_le_mul_of_nonneg_left (by linarith) hea
      calc ((⌊e.attack * (0.9 + s.rngStream s.rngIdx * 0.2)⌋ : ℚ))
          ≤ e.attack * (0.9 + s.rngStream s.rngIdx * 0.2) := Int.floor_le _
        _ ≤ e.attack * 1.1 := h1
    exact Hero.takeDamage_health_lower hero _ _ hhd hfl (by nlinarith)
  · simp [Hero.takeDamage]
  · simp [enemyAttack, hhero, hal, drawRand, createDamageNumber]
  · simp [enemyAttack, hhero, hal, drawRand, createDamageNumber]
  · simp [enemyAttack, hhero, hal, drawRand, createDamageNumber]

lemma enemyFold_effect (es : List Enemy) :
    ∀ (s : CombatState) (hero : Hero),
      s.bm.hero = some hero →
      (∀ e ∈ es, e.isAlive = true ∧ 0 ≤ e.attack) →
      0 ≤ hero.defense →
      (∀ n, 0 ≤ s.rngStream n ∧ s.rngStream n < 1) →
      threatSum es < hero.health →
      (es.foldl enemyStep s).events.length = s.events.length + es.length
      ∧ (es.foldl enemyStep s).bm.timeSinceLastAttack
          = s.bm.timeSinceLastAttack := by
  induction es with
  | nil =>
    intro s hero _ _ _ _ _
    exact ⟨rfl, rfl⟩
  | cons e rest ih =>
    intro s hero hhero hall hhd hrng hthreat
    have he := hall e (List.mem_cons_self e rest)
    have hrest : ∀ x ∈ rest, x.isAlive = true ∧ 0 ≤ x.attack :=
      fun x hx => hall x (List.mem_cons_of_mem e hx)
    have hrestsum : 0 ≤ threatSum rest :=
      threatSum_nonneg rest (fun x hx => (hrest x hx).2)
    rw [threatSum_cons] at hthreat
    have halive : hero.isAlive = true := by
      simp only [Hero.isAlive, decide_eq_true_eq]
      nlinarith
    have hstep := enemyAttack_effect s e hero hhero halive
      (hrng s.rngIdx).2 he.2 hhd
    obtain ⟨hero2, hh2, hhealth2, hdef2, hev2, htime2, hrng2⟩ := hstep
    have hfold : (e :: rest).foldl enemyStep s
        = rest.foldl enemyStep (enemyAttack s e) := by
      simp [List.foldl_cons, enemyStep, he.1]
    rw [hfold]
    have hrec := ih (enemyAttack s e) hero2 hh2 hrest (hdef2 ▸ hhd)
      (by rw [hrng2]; exact hrng) (by linarith)
    refine ⟨?_, ?_⟩
    · rw [hrec.1, hev2]
      simp
      omega
    · rw [hrec.2, htime2]

lemma Enemy.takeDamage_survives (e : Enemy) (d B : ℚ)
    (hed : 0 ≤ e.defense) (hdB : d ≤ B) (hB : 0 ≤ B)
    (hbig : 1 + B < e.health) :
    (e.takeDamage d).1.isAlive = true
    ∧ (e.takeDamage d).1.attack = e.attack := by
  have hbound : max 1 (d - e.defense * 0.5) ≤ 1 + B := by
    apply max_le
    · linarith
    · linarith
  constructor
  · simp only [Enemy.takeDamage, Enemy.isAlive, decide_eq_true_eq]
    split
    · rename_i hneg
      nlinarith
    · nlinarith
  · simp [Enemy.takeDamage]

lemma heroAttack_effect (s : CombatState) (hero : Hero)
    (hhero : s.bm.hero = some hero)
    (hne : s.bm.enemies ≠ [])
    (hall : ∀ e ∈ s.bm.enemies,
      e.isAlive = true ∧ 0 ≤ e.attack ∧ 0 ≤ e.defense
        ∧ 1 + hero.attack * 1.1 < e.health)
    (hha : 0 ≤ hero.attack)
    (hrng : ∀ n, 0 ≤ s.rngStream n ∧ s.rngStream n < 1) :
    (heroAttack s).events.length = s.events.length + 1
    ∧ (heroAttack s).bm.hero = some hero
    ∧ (heroAttack s).bm.timeSinceLastAttack = s.bm.timeSinceLastAttack
    ∧ (heroAttack s).rngStream = s.rngStream
    ∧ (∀ e ∈ (heroAttack s).bm.enemies, e.isAlive = true ∧ 0 ≤ e.attack)
    ∧ threatSum (heroAttack s).bm.enemies = threatSum s.bm.enemies
    ∧ (heroAttack s).bm.enemies.length = s.bm.enemies.length := by
  have hfilter : s.bm.enemies.filter (fun e => e.isAlive) = s.bm.enemies :=
    List.filter_eq_self.mpr (fun a ha => (hall a ha).1)
  have hie : s.bm.enemies.isEmpty = false := by
    cases hl : s.bm.enemies with
    | nil => exact absurd hl hne
    | cons a l => rfl
  have hlenpos : 0 < s.bm.enemies.length := List.length_pos.mpr hne
  have hidx : ((⌊s.rngStream s.rngIdx * (s.bm.enemies.length : ℚ)⌋).toNat)
      < s.bm.enemies.length :=
    floor_rand_index_lt _ _ (hrng s.rngIdx).1 (hrng s.rngIdx).2 hlenpos
  set idx := (⌊s.rngStream s.rngIdx * (s.bm.enemies.length : ℚ)⌋).toNat with hidxdef
  have htargetmem : s.bm.enemies.getD idx default ∈ s.bm.enemies := by
    rw [List.getD_eq_getElem s.bm.enemies default hidx]
    exact List.getElem_mem hidx
  obtain ⟨htal, hta, htd, hth⟩ := hall _ htargetmem
  have hdmg : ((⌊hero.attack * (0.9 + s.rngStream (s.rngIdx + 1) * 0.2)⌋ : ℚ))
      ≤ hero.attack * 1.1 := by
    have hr2 := hrng (s.rngIdx + 1)
    have h1 : hero.attack * (0.9 + s.rngStream (s.rngIdx + 1) * 0.2)
        ≤ hero.attack * 1.1 :=
      mul_le_mul_of_nonneg_left (by linarith [hr2.2]) hha
    calc ((⌊hero.attack * (0.9 + s.rngStream (s.rngIdx + 1) * 0.2)⌋ : ℚ))
        ≤ hero.attack * (0.9 + s.rngStream (s.rngIdx + 1) * 0.2) :=
          Int.floor_le _
      _ ≤ hero.attack * 1.1 := h1
  have hsurv := Enemy.takeDamage_survives (s.bm.enemies.getD idx default)
    ((⌊hero.attack * (0.9 + s.rngStream (s.rngIdx + 1) * 0.2)⌋ : ℤ) : ℚ)
    (hero.attack * 1.1) htd hdmg (by nlinarith) hth
  have hallset : ∀ e ∈ s.bm.enemies, e.isAlive = true :=
    fun e he => (hall e he).1
  refine ⟨?_, ?_, ?_, ?_, ?_, ?_, ?_⟩
  · simp [heroAttack, hhero, hfilter, hie, hne, drawRand, createDamageNumber]
  · simp [heroAttack, hhero, hfilter, hie, hne, drawRand, createDamageNumber]
  · simp [heroAttack, hhero, hfilter, hie, hne, drawRand, createDamageNumber]
  · simp [heroAttack, hhero, hfilter, hie, hne, drawRand, createDamageNumber]
  · simp only [heroAttack, hhero, hfilter, hie, drawRand, createDamageNumber,
      Bool.false_eq_true, if_false]
    rw [setNthAlive_eq_set _ _ _ hallset]
    intro e hmem
    rcases List.mem_or_eq_of_mem_set hmem with h | rfl
    · exact ⟨(hall e h).1, (hall e h).2.1⟩
    · exact ⟨hsurv.1, hsurv.2 ▸ hta⟩
  · simp only [heroAttack, hhero, hfilter, hie, drawRand, createDamageNumber,
      Bool.false_eq_true, if_false]
    rw [setNthAlive_eq_set _ _ _ hallset]
    exact threatSum_set _ _ _ hidx hsurv.2
  · simp only [heroAttack, hhero, hfilter, hie, drawRand, createDamageNumber,
      Bool.false_eq_true, if_false]
    rw [setNthAlive_eq_set _ _ _ hallset]
    exact List.length_set _ _ _

/-- C6.  With the battle active, unpaused, speed multiplier 1 and
`attackInterval = 1000`, a single `update(2500)` call from accumulator 0
fires exactly one round and resets `timeSinceLastAttack` to 0 rather than
the remainder 1500: the emission trace grows by exactly one hero attack
plus one attack per living enemy.  The side conditions say that the round
is non-degenerate — the random stream conforms to `[0, 1)`, stats are
non-negative, every enemy is alive and survives the hero's worst-case hit,
and the hero survives the sum of the enemies' worst-case hits — so that no
combatant dies mid-round and every scheduled attack actually fires. -/
theorem C6_update_2500_fires_one_round (s : CombatState) (hero : Hero)
    (hactive : s.bm.isBattleActive = true)
    (hpause : s.bm.isPaused = false)
    (hhero : s.bm.hero = some hero)
    (htimer : s.bm.timeSinceLastAttack = 0)
    (hint : s.bm.attackInterval = 1000)
    (hne : s.bm.enemies ≠ [])
    (hall : ∀ e ∈ s.bm.enemies,
      e.isAlive = true ∧ 0 ≤ e.attack ∧ 0 ≤ e.defense
        ∧ 1 + hero.attack * 1.1 < e.health)
    (hha : 0 ≤ hero.attack) (hhd : 0 ≤ hero.defense)
    (hthreat : threatSum s.bm.enemies < hero.health)
    (hrng : ∀ n, 0 ≤ s.rngStream n ∧ s.rngStream n < 1) :
    (s.update 2500 1).bm.timeSinceLastAttack = 0
    ∧ (s.update 2500 1).events.length
        = s.events.length + (1 + s.bm.enemies.length) := by
  have halive : hero.isAlive = true := by
    simp only [Hero.isAlive, decide_eq_true_eq]
    have h0 : 0 ≤ threatSum s.bm.enemies :=
      threatSum_nonneg _ (fun e he => (hall e he).2.1)
    linarith
  -- effect of heroAttack on the timer-bumped state
  have hH := heroAttack_effect
    { s with bm := { s.bm with
        timeSinceLastAttack := s.bm.timeSinceLastAttack + 2500 } }
    hero hhero hne hall hha hrng
  obtain ⟨hHev, hHhero, hHtimer, hHrng, hHall, hHthreat, hHlen⟩ := hH
  -- effect of the enemy loop after the hero attack
  have hF := enemyFold_effect
    (heroAttack { s with bm := { s.bm with
        timeSinceLastAttack := s.bm.timeSinceLastAttack + 2500 } }).bm.enemies
    (heroAttack { s with bm := { s.bm with
        timeSinceLastAttack := s.bm.timeSinceLastAttack + 2500 } })
    hero hHhero hHall hhd
    (by rw [hHrng]; exact hrng)
    (by rw [hHthreat]; exact hthreat)
  -- executeRound = heroAttack then the enemy fold
  have hexec : executeRound
      { s with bm := { s.bm with
          timeSinceLastAttack := s.bm.timeSinceLastAttack + 2500 } }
      = (heroAttack { s with bm := { s.bm with
          timeSinceLastAttack := s.bm.timeSinceLastAttack + 2500 } }).bm.enemies.foldl
          enemyStep
          (heroAttack { s with bm := { s.bm with
            timeSinceLastAttack := s.bm.timeSinceLastAttack + 2500 } }) := by
    simp only [executeRound, hhero, halive, if_true]
  -- the round's combined effect
  have hBev : (executeRound
      { s with bm := { s.bm with
          timeSinceLastAttack := s.bm.timeSinceLastAttack + 2500 } }).events.length
      = s.events.length + (1 + s.bm.enemies.length) := by
    rw [hexec, hF.1, hHev, hHlen]
    show s.events.length + 1 + s.bm.enemies.length
        = s.events.length + (1 + s.bm.enemies.length)
    omega
  -- unfold update: the guard passes and the interval fires
  have hcond : (!s.bm.isBattleActive || s.bm.isPaused || s.bm.hero.isNone)
      = false := by
    rw [hactive, hpause, hhero]
    rfl
  have hfire : s.bm.timeSinceLastAttack + 2500 ≥ s.bm.attackInterval / 1 := by
    rw [htimer, hint]
    norm_num
  simp only [CombatState.update, hcond, Bool.false_eq_true, if_false,
    if_pos hfire]
  -- name the post-round state and push the frame facts through the tail
  generalize hgen : executeRound
      { s with bm := { s.bm with
          timeSinceLastAttack := s.bm.timeSinceLastAttack + 2500 } } = B
  rw [hgen] at hBev
  generalize hgenE : checkEnemyRespawn
      (updateDamageNumbers
        { B with bm := { B.bm with timeSinceLastAttack := 0 } } 2500) = E
  have hEframe := checkEnemyRespawn_frame
    (updateDamageNumbers
      { B with bm := { B.bm with timeSinceLastAttack := 0 } } 2500)
  rw [hgenE] at hEframe
  have hEev : E.events = B.events := hEframe.1
  have hEtimer : E.bm.timeSinceLastAttack = 0 := hEframe.2.1
  cases hopt : E.bm.hero with
  | none =>
    simp [hEtimer, hEev, hBev]
  | some hh =>
    by_cases hal2 : hh.isAlive
    · simp [hal2, hEtimer, hEev, hBev]
    · have hR := respawnHero_frame E
      simp [hal2, hR.1, hR.2, hEtimer, hEev, hBev]

theorem C6_update_2500_fires_one_round_witness :
    roundWitnessState.bm.isBattleActive = true
    ∧ roundWitnessState.bm.isPaused = false
    ∧ roundWitnessState.bm.timeSinceLastAttack = 0
    ∧ roundWitnessState.bm.attackInterval = 1000
    ∧ (roundWitnessState.update 2500 1).bm.timeSinceLastAttack = 0
    ∧ (roundWitnessState.update 2500 1).events.length = 2 := by
  have hall : ∀ e ∈ roundWitnessState.bm.enemies,
      e.isAlive = true ∧ 0 ≤ e.attack ∧ 0 ≤ e.defense
        ∧ 1 + (Hero.create 0 "Bartimaeus" "Tank" 500 30 25).attack * 1.1
            < e.health := by
    intro e hmem
    simp only [roundWitnessState, List.mem_singleton] at hmem
    subst hmem
    refine ⟨?_, ?_, ?_, ?_⟩ <;>
      norm_num [Enemy.create, Enemy.isAlive, Hero.create, calculateAttack]
  have hthreat : threatSum roundWitnessState.bm.enemies
      < (Hero.create 0 "Bartimaeus" "Tank" 500 30 25).health := by
    norm_num [roundWitnessState, threatSum, Enemy.create, Hero.create,
      calculateMaxHealth]
  have hrng : ∀ n, 0 ≤ roundWitnessState.rngStream n
      ∧ roundWitnessState.rngStream n < 1 := by
    intro n
    norm_num [roundWitnessState]
  have hmain := C6_update_2500_fires_one_round roundWitnessState
    (Hero.create 0 "Bartimaeus" "Tank" 500 30 25)
    rfl rfl rfl rfl rfl (by simp [roundWitnessState]) hall
    (by norm_num [Hero.create, calculateAttack])
    (by norm_num [Hero.create, calculateDefense]) hthreat hrng
  refine ⟨rfl, rfl, rfl, rfl, hmain.1, ?_⟩
  have h2 := hmain.2
  simpa [roundWitnessState] using h2

end IdleRPG
